import Mathlib

/-!
Verification of the snapem dependency-vetting core against its specification.

The definitions below are a shallow embedding of the Go source:
  * `internal/types` (part_005): `Finding`, `ScanResult`, `AggregatedResult`
    and their derived queries;
  * `internal/config/config.go`: the policy configuration and its helpers;
  * `internal/scanner/orchestrator.go`: `Scan`, `ScanWithProgress`,
    `filterAllowlisted`, `aggregate` and the blocklist injection;
  * `internal/manifest/parser.go`: the lockfile branch of `GetDependencies`
    (name extraction via `filepath.Base`);
  * `internal/ui/prompt.go`: `PromptUnsecure` and `PromptForce`;
  * `internal/cli/scan.go` / `install.go`: the block decisions of
    `outputTextResult` and `evaluateScanResults`.

Modelling conventions: Go strings are Lean `String`s; Go `error` values are
modelled as opaque `String` messages in `Except`; `time.Duration` fields are
omitted (wall-clock time is outside the model); Go map iteration is modelled
as association-list iteration; the concurrent fan-out of the orchestrator is
modelled by collecting each available scanner's outcome in list order, with
`firstErr` the first error in that order (the claims under study do not
depend on which error wins).  `strings.ToLower` and `strings.TrimSpace` are
modelled on the Latin-1 range (ASCII case folding, Go's Latin-1 white-space
set), which covers every comparison the code performs.
-/

namespace Snapem

/-- Finding represents a security issue (types package).  `type` ranges over
the Go `FindingType` string constants and `severity` over the `Severity`
string constants. -/
structure Finding where
  package : String
  version : String
  type : String
  severity : String
  title : String
  description : String
  id : String
  references : List String
  remediation : String
deriving DecidableEq

/-- ScanResult contains findings from one scanner invocation (types package);
the `ScanDuration` field is omitted from the model. -/
structure ScanResult where
  scanner : String
  packages : Nat
  findings : List Finding
  cached : Bool
deriving DecidableEq

/-- AggregatedResult contains results from all scanners (types package); the
`Duration` field is omitted from the model. -/
structure AggregatedResult where
  results : List ScanResult
  totalPackages : Nat
  totalFindings : Nat
  hasMalware : Bool
  hasCritical : Bool
  hasHigh : Bool
deriving DecidableEq

/-- AllFindings returns a flat list of all findings (types package). -/
def AggregatedResult.allFindings (ar : AggregatedResult) : List Finding :=
  ar.results.foldl (fun findings result => findings ++ result.findings) []

/-- MalwareFindings returns only malware findings (types package). -/
def AggregatedResult.malwareFindings (ar : AggregatedResult) : List Finding :=
  ar.results.foldl (fun findings result =>
    findings ++ result.findings.filter
      (fun finding => finding.type = "malware" ∨ finding.type = "typosquat")) []

/-- CVEFindings returns only CVE findings (types package). -/
def AggregatedResult.cveFindings (ar : AggregatedResult) : List Finding :=
  ar.results.foldl (fun findings result =>
    findings ++ result.findings.filter (fun finding => finding.type = "cve")) []

/-- Package represents a dependency package (internal/manifest/parser.go). -/
structure Package where
  name : String
  version : String
  ecosystem : String
deriving DecidableEq

/-- PolicyConfig holds security policy settings (internal/config/config.go);
the Go `CVE map[string]string` is modelled as an association list. -/
structure PolicyConfig where
  malware : String
  cve : List (String × String)
  allowOverride : Bool
  allowlist : List String
  blocklist : List String
deriving DecidableEq

/-- Config: only the scanning-policy slice of `config.Config` is relevant to
the claims under study. -/
structure Config where
  policy : PolicyConfig
deriving DecidableEq

/-- ShouldBlock returns true if the given action is "block"
(internal/config/config.go). -/
def Config.shouldBlock (_ : Config) (action : String) : Bool :=
  action = "block"

/-- GetCVEAction returns the action for a given CVE severity, defaulting to
"ignore" for unmapped severities (internal/config/config.go). -/
def Config.getCVEAction (c : Config) (severity : String) : String :=
  match c.policy.cve.lookup severity with
  | some action => action
  | none => "ignore"

/-- IsPackageAllowlisted returns true if the package is in the allowlist
(internal/config/config.go). -/
def Config.isPackageAllowlisted (c : Config) (name : String) : Bool :=
  c.policy.allowlist.any (fun pkg => pkg = name)

/-- IsPackageBlocklisted returns true if the package is in the blocklist
(internal/config/config.go). -/
def Config.isPackageBlocklisted (c : Config) (name : String) : Bool :=
  c.policy.blocklist.any (fun pkg => pkg = name)

/-- A scanner as seen by the orchestrator (the `Scanner` interface of
internal/scanner/types.go): a name, availability, and a scan function from
the filtered package list to either a result or an error. -/
structure ScannerModel where
  name : String
  available : Bool
  scan : List Package → Except String ScanResult

/-- The orchestrator's `filterAllowlisted` (internal/scanner/orchestrator.go):
packages whose name is allowlisted are removed before scanning. -/
def filterAllowlisted (cfg : Config) (packages : List Package) : List Package :=
  packages.filter (fun pkg => ¬ cfg.isPackageAllowlisted pkg.name)

/-- One step of the fan-out/collection phase of `Scan`
(internal/scanner/orchestrator.go): an available scanner's success is
appended to the collected results, its failure is kept only when it is the
first error; an unavailable scanner is silently skipped. -/
def collectScanner (packages : List Package)
    (acc : List ScanResult × Option String) (s : ScannerModel) :
    List ScanResult × Option String :=
  if s.available then
    match s.scan packages with
    | Except.ok result => (acc.1 ++ [result], acc.2)
    | Except.error e => (acc.1, acc.2.orElse (fun _ => some e))
  else acc

/-- The fan-out/collection phase of `Scan` (internal/scanner/orchestrator.go):
every available scanner is invoked on the filtered packages; successes are
collected in order and the first error (in collection order) is retained. -/
def runScanners (scanners : List ScannerModel) (packages : List Package) :
    List ScanResult × Option String :=
  scanners.foldl (collectScanner packages) ([], none)

/-- The body of the inner loop of `aggregate`
(internal/scanner/orchestrator.go): fold one finding into the counters. -/
def aggregateFinding (a : AggregatedResult) (finding : Finding) :
    AggregatedResult :=
  { a with
    totalFindings := a.totalFindings + 1,
    hasMalware := a.hasMalware ||
      (finding.type = "malware" || finding.type = "typosquat"),
    hasCritical := a.hasCritical || finding.severity = "critical",
    hasHigh := a.hasHigh || finding.severity = "high" }

/-- The orchestrator's `aggregate` (internal/scanner/orchestrator.go): fold
every finding of every result into the counters. -/
def aggregate (results : List ScanResult) : AggregatedResult :=
  results.foldl
    (fun agg result => result.findings.foldl aggregateFinding agg)
    { results := results, totalPackages := 0, totalFindings := 0,
      hasMalware := false, hasCritical := false, hasHigh := false }

/-- The synthetic finding appended for a blocklisted package
(internal/scanner/orchestrator.go, lines 116-136). -/
def blocklistFinding (pkg : Package) : Finding :=
  { package := pkg.name, version := pkg.version, type := "malware",
    severity := "critical", title := "Blocklisted package",
    description := "This package is in your blocklist",
    id := "", references := [], remediation := "" }

/-- The synthetic "policy" pseudo-scanner result for a blocklisted package
(internal/scanner/orchestrator.go, lines 116-136). -/
def blocklistResult (pkg : Package) : ScanResult :=
  { scanner := "policy", packages := 1, findings := [blocklistFinding pkg],
    cached := false }

/-- The body of the blocklist-injection loop at the end of `Scan`
(internal/scanner/orchestrator.go, lines 116-136): a blocklisted package
appends a synthetic result, sets `HasMalware` and increments
`TotalFindings`. -/
def injectBlocklistPackage (cfg : Config) (a : AggregatedResult)
    (pkg : Package) : AggregatedResult :=
  if cfg.isPackageBlocklisted pkg.name then
    { a with
      results := a.results ++ [blocklistResult pkg],
      hasMalware := true,
      totalFindings := a.totalFindings + 1 }
  else a

/-- The blocklist-injection loop at the end of `Scan`
(internal/scanner/orchestrator.go, lines 116-136), run over the original
(pre-allowlist-filter) package list. -/
def injectBlocklist (cfg : Config) (packages : List Package)
    (agg : AggregatedResult) : AggregatedResult :=
  packages.foldl (injectBlocklistPackage cfg) agg

/-- Orchestrator.Scan (internal/scanner/orchestrator.go, lines 38-139). -/
def scan (cfg : Config) (scanners : List ScannerModel)
    (packages : List Package) : Except String AggregatedResult :=
  if packages.length = 0 then
    Except.ok { results := [], totalPackages := 0, totalFindings := 0,
                hasMalware := false, hasCritical := false, hasHigh := false }
  else
    let filteredPackages := filterAllowlisted cfg packages
    let collected := runScanners scanners filteredPackages
    match collected.1, collected.2 with
    | [], some firstErr => Except.error firstErr
    | results, _ =>
        let aggregated := aggregate results
        Except.ok (injectBlocklist cfg packages
          { aggregated with totalPackages := filteredPackages.length })

/-- Orchestrator.ScanWithProgress (internal/scanner/orchestrator.go, lines
142-221).  The progress callback only performs terminal output in the
source, so it contributes nothing to the returned value; it is carried as an
ignored argument (`none` models Go's `nil` callback).  Note the source of
`ScanWithProgress` ends after aggregation: it has no blocklist-injection
loop. -/
def scanWithProgress (cfg : Config) (scanners : List ScannerModel)
    (packages : List Package) (_ : Option (String → Bool → Unit)) :
    Except String AggregatedResult :=
  if packages.length = 0 then
    Except.ok { results := [], totalPackages := 0, totalFindings := 0,
                hasMalware := false, hasCritical := false, hasHigh := false }
  else
    let filteredPackages := filterAllowlisted cfg packages
    let collected := runScanners scanners filteredPackages
    match collected.1, collected.2 with
    | [], some firstErr => Except.error firstErr
    | results, _ =>
        let aggregated := aggregate results
        Except.ok { aggregated with totalPackages := filteredPackages.length }

/-- PackageLockPkg represents a package in the lockfile
(internal/manifest/parser.go). -/
structure PackageLockPkg where
  version : String
  resolved : String
  integrity : String
  dev : Bool
deriving DecidableEq

/-- Go's `filepath.Base` on Unix (used by `GetDependencies` to extract the
package name from a lockfile path): empty path gives ".", trailing slashes
are stripped, the segment after the last slash is returned, and an
all-slash path gives "/". -/
def filepathBase (path : String) : String :=
  if path = "" then "."
  else
    let chars := (path.toList.reverse.dropWhile (fun c => c = '/')).reverse
    let lastSegment := (chars.reverse.takeWhile (fun c => c ≠ '/')).reverse
    if lastSegment = [] then "/" else String.mk lastSegment

/-- The lockfile branch of Parser.GetDependencies
(internal/manifest/parser.go, lines 106-159, taken when a lockfile with
`lockfileVersion >= 2` is present): the Go map over `lockfile.Packages` is
modelled as an association list of (path, package info) entries.  Root
entries (empty path), dev entries when dev is excluded, and entries with
empty extracted name or empty version are skipped; the package name is
extracted with `filepath.Base`. -/
def getDependencies (lockPackages : List (String × PackageLockPkg))
    (includeDev : Bool) : List Package :=
  lockPackages.foldl
    (fun packages entry =>
      let pkgPath := entry.1
      let pkgInfo := entry.2
      if pkgPath = "" then packages
      else if pkgInfo.dev && !includeDev then packages
      else
        let name := filepathBase pkgPath
        if name = "" || pkgInfo.version = "" then packages
        else packages ++ [{ name := name, version := pkgInfo.version,
                            ecosystem := "npm" }])
    []

/-- Splitting a character list on `/`, mirroring `strings.Split` for the
single-character separator used by the spec's identity-resolution
algorithm. -/
def splitOnSlash (l : List Char) : List (List Char) :=
  match l with
  | [] => [[]]
  | c :: rest =>
      let segments := splitOnSlash rest
      if c = '/' then [] :: segments
      else
        match segments with
        | [] => [[c]]
        | segment :: more => (c :: segment) :: more

/-- Modelled from the spec and the repository's own test file
(internal/manifest/parser_test.go): the scoped-aware name extraction
`extractPackageName`, which the tests exercise but which is absent from
src/.  Per the spec: split the path on `/`; the name is the last segment,
except that when the second-to-last segment begins with `@` the name is the
last two segments joined by `/`. -/
def extractPackageName (pkgPath : String) : String :=
  let segments := (splitOnSlash pkgPath.toList).map String.mk
  match segments.reverse with
  | [] => ""
  | [last] => last
  | last :: secondToLast :: _ =>
      if secondToLast.toList.head? = some '@' then secondToLast ++ "/" ++ last
      else last

/-- Go's Latin-1 white-space test (`unicode.IsSpace` restricted to Latin-1:
space, tab, newline, vertical tab, form feed, carriage return, NEL, NBSP),
as used by `strings.TrimSpace`. -/
def isGoSpace (c : Char) : Bool :=
  c.toNat = 32 || c.toNat = 9 || c.toNat = 10 || c.toNat = 11 ||
    c.toNat = 12 || c.toNat = 13 || c.toNat = 133 || c.toNat = 160

/-- Model of Go's `strings.ToLower` on the ASCII range (the only range the
compared literals occupy): each character is lowered with
`Char.toLower`. -/
def goToLower (s : String) : String :=
  String.mk (s.toList.map Char.toLower)

/-- Model of Go's `strings.TrimSpace`: leading and trailing white space is
removed. -/
def goTrimSpace (s : String) : String :=
  String.mk (((s.toList.dropWhile isGoSpace).reverse.dropWhile isGoSpace).reverse)

/-- PromptUnsecure (internal/ui/prompt.go, lines 57-75): the entered line is
`none` on a read error; otherwise the line is lowered, trimmed and compared
with the literal "unsecure". -/
def promptUnsecure (input : Option String) : Bool :=
  match input with
  | none => false
  | some line => goTrimSpace (goToLower line) = "unsecure"

/-- PromptForce (internal/ui/prompt.go, lines 78-93): the entered line is
`none` on a read error; otherwise the line is lowered, trimmed and compared
with the literal "force". -/
def promptForce (input : Option String) : Bool :=
  match input with
  | none => false
  | some line => goTrimSpace (goToLower line) = "force"

/-- The block decision of `outputTextResult` (internal/cli/scan.go, lines
171-250), with `some reason` standing for the `SecurityBlockError(reason)`
return and `none` for the nil return.  A result with zero `TotalFindings`
returns early; otherwise malware blocking is checked first, then only the
"critical" severity via the `HasCritical` flag. -/
def outputTextDecision (cfg : Config) (result : AggregatedResult) :
    Option String :=
  if result.totalFindings = 0 then none
  else if result.hasMalware && cfg.shouldBlock cfg.policy.malware then
    some "malware detected"
  else if result.hasCritical && cfg.shouldBlock (cfg.getCVEAction "critical") then
    some "critical vulnerabilities detected"
  else none

/-- The body of the inner finding loop of `evaluateScanResults`
(internal/cli/install.go): one CVE finding flips the blocking flag when it
has the severity under consideration and that severity's action is
"block". -/
def cveSeverityStep (cfg : Config) (sev : String) (b : Bool)
    (f : Finding) : Bool :=
  if f.severity = sev then
    if cfg.shouldBlock (cfg.getCVEAction sev) then true else b
  else b

/-- The body of the outer severity loop of `evaluateScanResults`: scan every
CVE finding of one severity, flipping the blocking flag when that severity's
mapped action is "block". -/
def cveSeverityLoop (cfg : Config) (cveFindings : List Finding)
    (blocking : Bool) (sev : String) : Bool :=
  cveFindings.foldl (cveSeverityStep cfg sev) blocking

/-- The `hasBlockingIssue` computation of `evaluateScanResults`
(internal/cli/install.go, lines 188-249): malware findings block when the
malware action is "block"; then for each severity in
critical/high/medium/low, every CVE finding of that severity blocks when
that severity's mapped action is "block". -/
def evaluateScanBlocking (cfg : Config) (result : AggregatedResult) : Bool :=
  let afterMalware :=
    if (result.malwareFindings).length > 0 then
      if cfg.shouldBlock cfg.policy.malware then true else false
    else false
  let cveFindings := result.cveFindings
  if cveFindings.length > 0 then
    ["critical", "high", "medium", "low"].foldl
      (cveSeverityLoop cfg cveFindings) afterMalware
  else afterMalware

/-- The block decision of `evaluateScanResults` (internal/cli/install.go,
lines 188-249), with `some reason` standing for the
`SecurityBlockError(reason)` return and `none` for the nil return.  A
result with zero `TotalFindings` returns early with success. -/
def evaluateScanResults (cfg : Config) (result : AggregatedResult) :
    Option String :=
  if result.totalFindings = 0 then none
  else if evaluateScanBlocking cfg result then some "security threats detected"
  else none

/-- The concatenation of all findings of a result list, the reference point
for the aggregation lemmas. -/
def concatFindings (results : List ScanResult) : List Finding :=
  results.flatMap (fun r => r.findings)

/-- The successful results of the available scanners, in scanner order: the
reference point for the fan-out lemmas. -/
def okResults (scanners : List ScannerModel) (packages : List Package) :
    List ScanResult :=
  ((scanners.filter (fun s => s.available)).map (fun s => s.scan packages)).filterMap
    (fun outcome => match outcome with
      | Except.ok r => some r
      | Except.error _ => none)

/-- The errors of the available scanners, in scanner order. -/
def scanErrors (scanners : List ScannerModel) (packages : List Package) :
    List String :=
  ((scanners.filter (fun s => s.available)).map (fun s => s.scan packages)).filterMap
    (fun outcome => match outcome with
      | Except.ok _ => none
      | Except.error e => some e)

/-- Fixture configuration: a policy that both allowlists and blocklists
"evil-pkg", exercising the blocklist-wins-over-allowlist path. -/
def cfgEvil : Config :=
  { policy := { malware := "block", cve := [], allowOverride := false,
                allowlist := ["evil-pkg"], blocklist := ["evil-pkg"] } }

/-- Fixture package that is both allowlisted and blocklisted in `cfgEvil`. -/
def pkgEvil : Package :=
  { name := "evil-pkg", version := "1.0.0", ecosystem := "npm" }

/-- Fixture configuration with empty allow/block lists. -/
def cfgNone : Config :=
  { policy := { malware := "block", cve := [], allowOverride := false,
                allowlist := [], blocklist := [] } }

/-- Fixture configuration that maps high-severity CVEs to "block" and
malware to "warn". -/
def cfgHighBlock : Config :=
  { policy := { malware := "warn", cve := [("high", "block")],
                allowOverride := false, allowlist := [], blocklist := [] } }

/-- Fixture package that is in no allow/block list. -/
def pkgPlain : Package :=
  { name := "left-pad", version := "1.3.0", ecosystem := "npm" }

/-- Fixture finding: a high-severity CVE. -/
def findingHighCVE : Finding :=
  { package := "left-pad", version := "1.3.0", type := "cve",
    severity := "high", title := "Prototype pollution",
    description := "", id := "CVE-2026-0001", references := [],
    remediation := "" }

/-- Fixture finding: critical malware. -/
def findingMalware : Finding :=
  { package := "left-pad", version := "1.3.0", type := "malware",
    severity := "critical", title := "Install script exfiltrates data",
    description := "", id := "", references := [], remediation := "" }

/-- Fixture scanner result holding the malware finding. -/
def srMalware : ScanResult :=
  { scanner := "Socket.dev", packages := 1, findings := [findingMalware],
    cached := false }

/-- Fixture scanner result holding the CVE finding. -/
def srCVE : ScanResult :=
  { scanner := "OSV", packages := 1, findings := [findingHighCVE],
    cached := false }

/-- Fixture scanner that always succeeds with the CVE result. -/
def scannerOk : ScannerModel :=
  { name := "OSV", available := true, scan := fun _ => Except.ok srCVE }

/-- Fixture scanner that always fails. -/
def scannerFail : ScannerModel :=
  { name := "Socket.dev", available := true,
    scan := fun _ => Except.error "socket: request failed" }

/-- Fixture scanner that is not available. -/
def scannerUnavailable : ScannerModel :=
  { name := "Socket.dev", available := false,
    scan := fun _ => Except.error "unavailable" }

/-- Fixture aggregated result with exactly one high-severity CVE finding. -/
def resHighCVE : AggregatedResult :=
  { results := [srCVE], totalPackages := 1, totalFindings := 1,
    hasMalware := false, hasCritical := false, hasHigh := true }

lemma concatFindings_cons (r : ScanResult) (rs : List ScanResult) :
    concatFindings (r :: rs) = r.findings ++ concatFindings rs := rfl

lemma concatFindings_append (rs₁ rs₂ : List ScanResult) :
    concatFindings (rs₁ ++ rs₂) = concatFindings rs₁ ++ concatFindings rs₂ := by
  simp [concatFindings]

lemma foldl_append_findings (rs : List ScanResult) (init : List Finding) :
    rs.foldl (fun findings result => findings ++ result.findings) init =
      init ++ concatFindings rs := by
  induction rs generalizing init with
  | nil => simp [concatFindings]
  | cons r rs ih => simp [ih, concatFindings_cons]

lemma allFindings_eq (ar : AggregatedResult) :
    ar.allFindings = concatFindings ar.results := by
  simp [AggregatedResult.allFindings, foldl_append_findings]

lemma foldl_aggregateFinding (fs : List Finding) (a : AggregatedResult) :
    fs.foldl aggregateFinding a =
      { a with
        totalFindings := a.totalFindings + fs.length,
        hasMalware := a.hasMalware ||
          fs.any (fun f => f.type = "malware" || f.type = "typosquat"),
        hasCritical := a.hasCritical || fs.any (fun f => f.severity = "critical"),
        hasHigh := a.hasHigh || fs.any (fun f => f.severity = "high") } := by
  induction fs generalizing a with
  | nil => simp
  | cons f fs ih =>
      simp only [List.foldl_cons, ih, aggregateFinding, List.any_cons,
        List.length_cons]
      cases a
      simp [Bool.or_assoc]
      omega

lemma foldl_aggregate_results (rs : List ScanResult) (a : AggregatedResult) :
    rs.foldl (fun agg result => result.findings.foldl aggregateFinding agg) a =
      { a with
        totalFindings := a.totalFindings + (concatFindings rs).length,
        hasMalware := a.hasMalware ||
          (concatFindings rs).any (fun f => f.type = "malware" || f.type = "typosquat"),
        hasCritical := a.hasCritical ||
          (concatFindings rs).any (fun f => f.severity = "critical"),
        hasHigh := a.hasHigh ||
          (concatFindings rs).any (fun f => f.severity = "high") } := by
  induction rs generalizing a with
  | nil => simp [concatFindings]
  | cons r rs ih =>
      rw [List.foldl_cons, ih, foldl_aggregateFinding]
      cases a
      simp [Bool.or_assoc, concatFindings_cons, List.any_append,
        List.length_append, Nat.add_assoc]

lemma aggregate_eq (rs : List ScanResult) :
    aggregate rs =
      { results := rs, totalPackages := 0,
        totalFindings := (concatFindings rs).length,
        hasMalware :=
          (concatFindings rs).any (fun f => f.type = "malware" || f.type = "typosquat"),
        hasCritical := (concatFindings rs).any (fun f => f.severity = "critical"),
        hasHigh := (concatFindings rs).any (fun f => f.severity = "high") } := by
  simp [aggregate, foldl_aggregate_results]

lemma injectBlocklist_eq (cfg : Config) (packages : List Package)
    (a : AggregatedResult) :
    injectBlocklist cfg packages a =
      { a with
        results := a.results ++
          (packages.filter (fun p => cfg.isPackageBlocklisted p.name)).map
            blocklistResult,
        totalFindings := a.totalFindings +
          (packages.filter (fun p => cfg.isPackageBlocklisted p.name)).length,
        hasMalware := a.hasMalware ||
          packages.any (fun p => cfg.isPackageBlocklisted p.name) } := by
  induction packages generalizing a with
  | nil => simp [injectBlocklist]
  | cons pkg pkgs ih =>
      simp only [injectBlocklist, List.foldl_cons] at ih ⊢
      rw [ih]
      by_cases h : cfg.isPackageBlocklisted pkg.name
      · simp only [injectBlocklistPackage, h, if_true]
        cases a
        simp [h, Bool.or_assoc, List.filter_cons, Nat.add_assoc,
          Nat.add_comm 1]
      · simp only [injectBlocklistPackage, h]
        cases a
        simp [h, List.filter_cons]

lemma okResults_cons_unavail {s : ScannerModel} (ss : List ScannerModel)
    (packages : List Package) (hav : s.available = false) :
    okResults (s :: ss) packages = okResults ss packages := by
  simp [okResults, List.filter_cons, hav]

lemma okResults_cons_ok {s : ScannerModel} (ss : List ScannerModel)
    {packages : List Package} {r : ScanResult} (hav : s.available = true)
    (hscan : s.scan packages = Except.ok r) :
    okResults (s :: ss) packages = r :: okResults ss packages := by
  simp [okResults, List.filter_cons, hav, hscan]

lemma okResults_cons_error {s : ScannerModel} (ss : List ScannerModel)
    {packages : List Package} {e : String} (hav : s.available = true)
    (hscan : s.scan packages = Except.error e) :
    okResults (s :: ss) packages = okResults ss packages := by
  simp [okResults, List.filter_cons, hav, hscan]

lemma scanErrors_cons_unavail {s : ScannerModel} (ss : List ScannerModel)
    (packages : List Package) (hav : s.available = false) :
    scanErrors (s :: ss) packages = scanErrors ss packages := by
  simp [scanErrors, List.filter_cons, hav]

lemma scanErrors_cons_ok {s : ScannerModel} (ss : List ScannerModel)
    {packages : List Package} {r : ScanResult} (hav : s.available = true)
    (hscan : s.scan packages = Except.ok r) :
    scanErrors (s :: ss) packages = scanErrors ss packages := by
  simp [scanErrors, List.filter_cons, hav, hscan]

lemma scanErrors_cons_error {s : ScannerModel} (ss : List ScannerModel)
    {packages : List Package} {e : String} (hav : s.available = true)
    (hscan : s.scan packages = Except.error e) :
    scanErrors (s :: ss) packages = e :: scanErrors ss packages := by
  simp [scanErrors, List.filter_cons, hav, hscan]

lemma foldl_collectScanner (scanners : List ScannerModel)
    (packages : List Package) (acc : List ScanResult × Option String) :
    scanners.foldl (collectScanner packages) acc =
      (acc.1 ++ okResults scanners packages,
       acc.2.orElse (fun _ => (scanErrors scanners packages).head?)) := by
  induction scanners generalizing acc with
  | nil =>
      obtain ⟨accL, accR⟩ := acc
      simp only [List.foldl_nil, okResults, scanErrors, List.filter_nil,
        List.map_nil, List.filterMap_nil, List.head?_nil, List.append_nil]
      cases accR <;> rfl
  | cons s ss ih =>
      simp only [List.foldl_cons, collectScanner]
      by_cases hav : s.available
      · rw [if_pos hav]
        cases hscan : s.scan packages with
        | ok r =>
            rw [ih, okResults_cons_ok ss hav hscan,
              scanErrors_cons_ok ss hav hscan]
            obtain ⟨accL, accR⟩ := acc
            simp
        | error e =>
            rw [ih, okResults_cons_error ss hav hscan,
              scanErrors_cons_error ss hav hscan]
            obtain ⟨accL, accR⟩ := acc
            simp only [List.head?_cons, Prod.mk.injEq]
            refine ⟨trivial, ?hsnd⟩
            cases accR <;> rfl
      · rw [if_neg hav, ih,
          okResults_cons_unavail ss packages (Bool.not_eq_true _ ▸ eq_false_of_ne_true hav),
          scanErrors_cons_unavail ss packages (Bool.not_eq_true _ ▸ eq_false_of_ne_true hav)]

lemma runScanners_eq (scanners : List ScannerModel) (packages : List Package) :
    runScanners scanners packages =
      (okResults scanners packages, (scanErrors scanners packages).head?) := by
  rw [runScanners, foldl_collectScanner]
  rfl

lemma scan_error_char (cfg : Config) (scanners : List ScannerModel)
    (packages : List Package) {e : String} (hne : packages ≠ [])
    (hok : okResults scanners (filterAllowlisted cfg packages) = [])
    (he : (scanErrors scanners (filterAllowlisted cfg packages)).head? = some e) :
    scan cfg scanners packages = Except.error e := by
  simp only [scan, runScanners_eq, hok, he, List.length_eq_zero, hne, if_false]

lemma scan_ok_char (cfg : Config) (scanners : List ScannerModel)
    (packages : List Package) (hne : packages ≠ [])
    (h : okResults scanners (filterAllowlisted cfg packages) ≠ [] ∨
      (scanErrors scanners (filterAllowlisted cfg packages)).head? = none) :
    scan cfg scanners packages =
      Except.ok (injectBlocklist cfg packages
        { aggregate (okResults scanners (filterAllowlisted cfg packages)) with
          totalPackages := (filterAllowlisted cfg packages).length }) := by
  simp only [scan, runScanners_eq, List.length_eq_zero, hne, if_false]
  rcases h with h | h
  · cases hok : okResults scanners (filterAllowlisted cfg packages) with
    | nil => exact absurd hok h
    | cons r rs => rfl
  · cases hok : okResults scanners (filterAllowlisted cfg packages) with
    | nil => rw [h]
    | cons r rs => rfl

lemma scanWithProgress_ok_char (cfg : Config) (scanners : List ScannerModel)
    (packages : List Package) (onProgress : Option (String → Bool → Unit))
    (hne : packages ≠ [])
    (h : okResults scanners (filterAllowlisted cfg packages) ≠ [] ∨
      (scanErrors scanners (filterAllowlisted cfg packages)).head? = none) :
    scanWithProgress cfg scanners packages onProgress =
      Except.ok
        { aggregate (okResults scanners (filterAllowlisted cfg packages)) with
          totalPackages := (filterAllowlisted cfg packages).length } := by
  simp only [scanWithProgress, runScanners_eq, List.length_eq_zero, hne, if_false]
  rcases h with h | h
  · cases hok : okResults scanners (filterAllowlisted cfg packages) with
    | nil => exact absurd hok h
    | cons r rs => rfl
  · cases hok : okResults scanners (filterAllowlisted cfg packages) with
    | nil => rw [h]
    | cons r rs => rfl

lemma scan_ok_elim (cfg : Config) (scanners : List ScannerModel)
    (packages : List Package) (res : AggregatedResult) (hne : packages ≠ [])
    (hok : scan cfg scanners packages = Except.ok res) :
    res = injectBlocklist cfg packages
      { aggregate (okResults scanners (filterAllowlisted cfg packages)) with
        totalPackages := (filterAllowlisted cfg packages).length } := by
  by_cases hnil : okResults scanners (filterAllowlisted cfg packages) = []
  · cases he : (scanErrors scanners (filterAllowlisted cfg packages)).head? with
    | none =>
        rw [scan_ok_char cfg scanners packages hne (Or.inr he)] at hok
        exact (Except.ok.inj hok).symm
    | some e =>
        rw [scan_error_char cfg scanners packages hne hnil he] at hok
        exact absurd hok (by simp)
  · rw [scan_ok_char cfg scanners packages hne (Or.inl hnil)] at hok
    exact (Except.ok.inj hok).symm

lemma concatFindings_map_blocklistResult (l : List Package) :
    concatFindings (l.map blocklistResult) = l.map blocklistFinding := by
  induction l with
  | nil => rfl
  | cons p ps ih =>
      simp only [List.map_cons, concatFindings_cons, ih]
      rfl

/-- Claim C6: for an empty package list, `scan` returns immediately with an
aggregated result whose `total_packages` and `total_findings` are both zero
and no error.  The equation holds for every configuration and every scanner
list, and its right-hand side does not depend on the scanners, so no
scanner's scan function is invoked (none can influence the result). -/
theorem scan_empty_packages (cfg : Config) (scanners : List ScannerModel) :
    scan cfg scanners [] =
      Except.ok { results := [], totalPackages := 0, totalFindings := 0,
                  hasMalware := false, hasCritical := false, hasHigh := false } :=
  rfl

/-- Claim C1 (code bug): `GetDependencies` extracts the package name with
`filepath.Base`, so the scoped lockfile entry "node_modules/@babel/core"
resolves to name "core", not "@babel/core" as the claim states and as the
repository's own test file (parser_test.go, "this was the bug!") requires
of `extractPackageName` — a function the tests call but that is absent from
the source tree.  The spec-modelled `extractPackageName` does return
"@babel/core". -/
theorem getDependencies_scoped_path_bug :
    getDependencies
        [("node_modules/@babel/core",
          { version := "7.26.0", resolved := "", integrity := "", dev := false })]
        false =
      [{ name := "core", version := "7.26.0", ecosystem := "npm" }] ∧
    extractPackageName "node_modules/@babel/core" = "@babel/core" ∧
    ("core" : String) ≠ "@babel/core" :=
  ⟨rfl, by decide, by decide⟩

/-- Claim C2 (code bug): `Scan` and `ScanWithProgress` do not return the
same aggregated result on the same inputs, whatever the callback:
`ScanWithProgress` is missing the blocklist-injection step.  On a
blocklisted (and allowlisted) package with no scanners configured, `Scan`
returns the synthetic "policy" malware finding with `total_findings = 1`
and `has_malware = true`, while `ScanWithProgress` returns an empty result
regardless of the progress callback. -/
theorem scanWithProgress_misses_blocklist :
    scan cfgEvil [] [pkgEvil] =
      Except.ok { results := [blocklistResult pkgEvil], totalPackages := 0,
                  totalFindings := 1, hasMalware := true, hasCritical := false,
                  hasHigh := false } ∧
    (∀ onProgress : Option (String → Bool → Unit),
      scanWithProgress cfgEvil [] [pkgEvil] onProgress =
        Except.ok { results := [], totalPackages := 0, totalFindings := 0,
                    hasMalware := false, hasCritical := false,
                    hasHigh := false }) :=
  ⟨rfl, fun _ => rfl⟩

/-- Claim C9: for every aggregated result returned without error by `scan`,
`total_findings` equals the length of `allFindings` (the findings actually
present across all result entries), synthetic blocklist findings
included. -/
theorem scan_totalFindings_eq_allFindings (cfg : Config)
    (scanners : List ScannerModel) (packages : List Package)
    (res : AggregatedResult)
    (hok : scan cfg scanners packages = Except.ok res) :
    res.totalFindings = res.allFindings.length := by
  cases packages with
  | nil =>
      have hres :
          ({ results := [], totalPackages := 0, totalFindings := 0,
             hasMalware := false, hasCritical := false,
             hasHigh := false } : AggregatedResult) = res :=
        Except.ok.inj hok
      rw [← hres]
      rfl
  | cons p ps =>
      rw [scan_ok_elim cfg scanners (p :: ps) res (by simp) hok,
        injectBlocklist_eq, aggregate_eq]
      simp [allFindings_eq, concatFindings_append,
        concatFindings_map_blocklistResult]

/-- Claim C9 witness: a concrete run of `scan` on a blocklisted package
with no scanners, where the invariant is checked on the returned result. -/
theorem scan_totalFindings_eq_allFindings_witness :
    ({ results := [blocklistResult pkgEvil], totalPackages := 0,
       totalFindings := 1, hasMalware := true, hasCritical := false,
       hasHigh := false } : AggregatedResult).totalFindings =
      ({ results := [blocklistResult pkgEvil], totalPackages := 0,
         totalFindings := 1, hasMalware := true, hasCritical := false,
         hasHigh := false } : AggregatedResult).allFindings.length :=
  scan_totalFindings_eq_allFindings cfgEvil [] [pkgEvil] _ rfl

/-- Claim C3: every original package whose name is blocklisted contributes
its synthetic "policy" result (type malware, severity critical, title
"Blocklisted package") to any result `scan` returns successfully, forces
`has_malware = true`, and `total_findings` counts exactly the
scanner-aggregated findings plus one per blocklisted original package —
independent of allowlist membership (the quantification places no
constraint on the allowlist) and of what the scanners reported. -/
theorem scan_blocklist_injection (cfg : Config) (scanners : List ScannerModel)
    (packages : List Package) (res : AggregatedResult) (pkg : Package)
    (hok : scan cfg scanners packages = Except.ok res)
    (hmem : pkg ∈ packages)
    (hbl : cfg.isPackageBlocklisted pkg.name = true) :
    blocklistResult pkg ∈ res.results ∧
    res.hasMalware = true ∧
    res.totalFindings =
      (concatFindings (okResults scanners (filterAllowlisted cfg packages))).length +
        (packages.filter (fun p => cfg.isPackageBlocklisted p.name)).length := by
  have hne : packages ≠ [] := by
    rintro rfl
    cases hmem
  rw [scan_ok_elim cfg scanners packages res hne hok, injectBlocklist_eq,
    aggregate_eq]
  refine ⟨?mem, ?mal, rfl⟩
  · exact List.mem_append_right _
      (List.mem_map_of_mem _ (List.mem_filter.mpr ⟨hmem, hbl⟩))
  · have hany : packages.any (fun p => cfg.isPackageBlocklisted p.name) = true :=
      List.any_eq_true.mpr ⟨pkg, hmem, hbl⟩
    simp [hany]

/-- Claim C3 witness: the blocklisted-and-allowlisted fixture package,
scanned with no scanners, yields the synthetic policy finding. -/
theorem scan_blocklist_injection_witness :
    blocklistResult pkgEvil ∈
      ({ results := [blocklistResult pkgEvil], totalPackages := 0,
         totalFindings := 1, hasMalware := true, hasCritical := false,
         hasHigh := false } : AggregatedResult).results ∧
    ({ results := [blocklistResult pkgEvil], totalPackages := 0,
       totalFindings := 1, hasMalware := true, hasCritical := false,
       hasHigh := false } : AggregatedResult).hasMalware = true ∧
    ({ results := [blocklistResult pkgEvil], totalPackages := 0,
       totalFindings := 1, hasMalware := true, hasCritical := false,
       hasHigh := false } : AggregatedResult).totalFindings =
      (concatFindings (okResults [] (filterAllowlisted cfgEvil [pkgEvil]))).length +
        ([pkgEvil].filter (fun p => cfgEvil.isPackageBlocklisted p.name)).length :=
  scan_blocklist_injection cfgEvil [] [pkgEvil] _ pkgEvil rfl
    (List.mem_singleton.mpr rfl) rfl

/-- Claim C10: with a non-empty package list but no available scanner, `scan`
returns success (not the all-scanners-failed error) and the result carries
no scanner-produced findings: its results are exactly the synthetic
blocklist injections over the original packages. -/
theorem scan_no_available_scanner (cfg : Config)
    (scanners : List ScannerModel) (packages : List Package)
    (hne : packages ≠ [])
    (hnoavail : scanners.filter (fun s => s.available) = []) :
    scan cfg scanners packages =
      Except.ok
        { results :=
            (packages.filter (fun p => cfg.isPackageBlocklisted p.name)).map
              blocklistResult,
          totalPackages := (filterAllowlisted cfg packages).length,
          totalFindings :=
            (packages.filter (fun p => cfg.isPackageBlocklisted p.name)).length,
          hasMalware := packages.any (fun p => cfg.isPackageBlocklisted p.name),
          hasCritical := false, hasHigh := false } := by
  have hok : okResults scanners (filterAllowlisted cfg packages) = [] := by
    simp [okResults, hnoavail]
  have herr : scanErrors scanners (filterAllowlisted cfg packages) = [] := by
    simp [scanErrors, hnoavail]
  rw [scan_ok_char cfg scanners packages hne (Or.inr (by rw [herr]; rfl)), hok,
    injectBlocklist_eq, aggregate_eq]
  simp [concatFindings]

/-- Claim C10 witness: one unavailable scanner, one blocklisted package. -/
theorem scan_no_available_scanner_witness :
    scan cfgEvil [scannerUnavailable] [pkgEvil] =
      Except.ok
        { results :=
            ([pkgEvil].filter (fun p => cfgEvil.isPackageBlocklisted p.name)).map
              blocklistResult,
          totalPackages := (filterAllowlisted cfgEvil [pkgEvil]).length,
          totalFindings :=
            ([pkgEvil].filter (fun p => cfgEvil.isPackageBlocklisted p.name)).length,
          hasMalware := [pkgEvil].any (fun p => cfgEvil.isPackageBlocklisted p.name),
          hasCritical := false, hasHigh := false } :=
  scan_no_available_scanner cfgEvil [scannerUnavailable] [pkgEvil]
    (by simp) rfl

/-- Claim C4: if at least one available scanner succeeds, `scan` returns a
result with no error whose entries are exactly the successful scanners'
results (failed scanners contribute nothing and do not appear) plus the
synthetic blocklist injections, and whose `total_findings` aggregates only
the successful scanners' findings (plus the injections); if at least one
scanner is invoked and every invoked scanner fails, `scan` returns an error
and no result. -/
theorem scan_failure_tolerance (cfg : Config) (scanners : List ScannerModel)
    (packages : List Package) (hne : packages ≠ []) :
    ((∃ s ∈ scanners, s.available = true ∧
        ∃ r, s.scan (filterAllowlisted cfg packages) = Except.ok r) →
      ∃ res, scan cfg scanners packages = Except.ok res ∧
        res.results =
          okResults scanners (filterAllowlisted cfg packages) ++
            (packages.filter (fun p => cfg.isPackageBlocklisted p.name)).map
              blocklistResult ∧
        res.totalFindings =
          (concatFindings
              (okResults scanners (filterAllowlisted cfg packages))).length +
            (packages.filter (fun p => cfg.isPackageBlocklisted p.name)).length) ∧
    (((∃ s ∈ scanners, s.available = true) ∧
      (∀ s ∈ scanners, s.available = true →
        ∃ e, s.scan (filterAllowlisted cfg packages) = Except.error e)) →
      ∃ e, scan cfg scanners packages = Except.error e) := by
  constructor
  · rintro ⟨s, hs, hav, r, hr⟩
    have hmem : r ∈ okResults scanners (filterAllowlisted cfg packages) := by
      simp only [okResults, List.mem_filterMap, List.mem_map]
      refine ⟨s.scan (filterAllowlisted cfg packages),
        ⟨s, List.mem_filter.mpr ⟨hs, hav⟩, rfl⟩, ?_⟩
      rw [hr]
    have hnn : okResults scanners (filterAllowlisted cfg packages) ≠ [] :=
      List.ne_nil_of_mem hmem
    refine ⟨_, scan_ok_char cfg scanners packages hne (Or.inl hnn), ?hres, ?htot⟩
    · rw [injectBlocklist_eq, aggregate_eq]
    · rw [injectBlocklist_eq, aggregate_eq]
  · rintro ⟨⟨s, hs, hav⟩, hall⟩
    have hoknil : okResults scanners (filterAllowlisted cfg packages) = [] := by
      rw [okResults, List.filterMap_eq_nil_iff]
      rintro o ho
      simp only [List.mem_map] at ho
      obtain ⟨s', hs', rfl⟩ := ho
      have hs'm := List.mem_filter.mp hs'
      obtain ⟨e, he⟩ := hall s' hs'm.1 hs'm.2
      rw [he]
    obtain ⟨e₀, he₀⟩ := hall s hs hav
    have herrmem : e₀ ∈ scanErrors scanners (filterAllowlisted cfg packages) := by
      simp only [scanErrors, List.mem_filterMap, List.mem_map]
      refine ⟨s.scan (filterAllowlisted cfg packages),
        ⟨s, List.mem_filter.mpr ⟨hs, hav⟩, rfl⟩, ?_⟩
      rw [he₀]
    cases herrs : scanErrors scanners (filterAllowlisted cfg packages) with
    | nil =>
        rw [herrs] at herrmem
        cases herrmem
    | cons e' es =>
        exact ⟨e', scan_error_char cfg scanners packages hne hoknil
          (by rw [herrs]; rfl)⟩

/-- Claim C4 witness: one succeeding and one failing scanner yield success;
a single failing scanner yields an error. -/
theorem scan_failure_tolerance_witness :
    (∃ res, scan cfgNone [scannerOk, scannerFail] [pkgPlain] = Except.ok res ∧
      res.results =
        okResults [scannerOk, scannerFail]
            (filterAllowlisted cfgNone [pkgPlain]) ++
          ([pkgPlain].filter
              (fun p => cfgNone.isPackageBlocklisted p.name)).map
            blocklistResult ∧
      res.totalFindings =
        (concatFindings
            (okResults [scannerOk, scannerFail]
              (filterAllowlisted cfgNone [pkgPlain]))).length +
          ([pkgPlain].filter
              (fun p => cfgNone.isPackageBlocklisted p.name)).length) ∧
    (∃ e, scan cfgNone [scannerFail] [pkgPlain] = Except.error e) :=
  ⟨(scan_failure_tolerance cfgNone [scannerOk, scannerFail] [pkgPlain]
      (by simp)).1
      ⟨scannerOk, by simp, rfl, srCVE, rfl⟩,
   (scan_failure_tolerance cfgNone [scannerFail] [pkgPlain] (by simp)).2
      ⟨⟨scannerFail, by simp, rfl⟩, by
        intro s hs hav
        rw [List.mem_singleton.mp hs]
        exact ⟨"socket: request failed", rfl⟩⟩⟩

/-- Claim C7: aggregation is an order-independent fold over findings — if
two result lists carry the same findings up to permutation (of the results
and of the findings inside them), `aggregate` produces identical
`total_findings`, `has_malware`, `has_critical` and `has_high`. -/
theorem aggregate_commutative (rs₁ rs₂ : List ScanResult)
    (hperm : (concatFindings rs₁).Perm (concatFindings rs₂)) :
    (aggregate rs₁).totalFindings = (aggregate rs₂).totalFindings ∧
    (aggregate rs₁).hasMalware = (aggregate rs₂).hasMalware ∧
    (aggregate rs₁).hasCritical = (aggregate rs₂).hasCritical ∧
    (aggregate rs₁).hasHigh = (aggregate rs₂).hasHigh := by
  have hany : ∀ p : Finding → Bool,
      (concatFindings rs₁).any p = (concatFindings rs₂).any p := by
    intro p
    rw [Bool.eq_iff_iff]
    simp only [List.any_eq_true]
    constructor
    · rintro ⟨f, hf, hp⟩
      exact ⟨f, hperm.mem_iff.mp hf, hp⟩
    · rintro ⟨f, hf, hp⟩
      exact ⟨f, hperm.mem_iff.mpr hf, hp⟩
  refine ⟨?_, ?_, ?_, ?_⟩ <;> simp [aggregate_eq, hperm.length_eq, hany]

/-- Claim C7 witness: swapping two concrete scanner results leaves all four
aggregate counters unchanged. -/
theorem aggregate_commutative_witness :
    (aggregate [srMalware, srCVE]).totalFindings =
      (aggregate [srCVE, srMalware]).totalFindings ∧
    (aggregate [srMalware, srCVE]).hasMalware =
      (aggregate [srCVE, srMalware]).hasMalware ∧
    (aggregate [srMalware, srCVE]).hasCritical =
      (aggregate [srCVE, srMalware]).hasCritical ∧
    (aggregate [srMalware, srCVE]).hasHigh =
      (aggregate [srCVE, srMalware]).hasHigh :=
  aggregate_commutative [srMalware, srCVE] [srCVE, srMalware] (by decide)

lemma cveSeverityLoop_eq (cfg : Config) (sev : String) (fs : List Finding)
    (b : Bool) :
    cveSeverityLoop cfg fs b sev =
      (b || (fs.any (fun f => f.severity = sev) &&
        cfg.shouldBlock (cfg.getCVEAction sev))) := by
  induction fs generalizing b with
  | nil => simp [cveSeverityLoop]
  | cons f fs ih =>
      rw [cveSeverityLoop, List.foldl_cons]
      rw [show List.foldl (cveSeverityStep cfg sev)
            (cveSeverityStep cfg sev b f) fs =
          cveSeverityLoop cfg fs (cveSeverityStep cfg sev b f) sev from rfl, ih]
      simp only [cveSeverityStep, List.any_cons]
      by_cases h1 : f.severity = sev <;>
        by_cases h2 : cfg.shouldBlock (cfg.getCVEAction sev) = true <;>
        simp [h1, h2]

lemma severityFold_eq (cfg : Config) (fs : List Finding)
    (sevs : List String) (b : Bool) :
    sevs.foldl (cveSeverityLoop cfg fs) b =
      (b || sevs.any (fun sev => fs.any (fun f => f.severity = sev) &&
        cfg.shouldBlock (cfg.getCVEAction sev))) := by
  induction sevs generalizing b with
  | nil => simp
  | cons sev sevs ih =>
      rw [List.foldl_cons, ih, cveSeverityLoop_eq]
      simp [Bool.or_assoc]

lemma exists_blocking_severity_swap (cfg : Config) (fs : List Finding)
    (sevs : List String) :
    (sevs.any (fun sev => fs.any (fun f => f.severity = sev) &&
        cfg.shouldBlock (cfg.getCVEAction sev)) = true) ↔
      ∃ f ∈ fs, f.severity ∈ sevs ∧ cfg.getCVEAction f.severity = "block" := by
  simp only [List.any_eq_true, Bool.and_eq_true, Config.shouldBlock,
    decide_eq_true_eq]
  constructor
  · rintro ⟨sev, hsev, ⟨f, hf, hfs⟩, hP⟩
    exact ⟨f, hf, hfs ▸ hsev, hfs ▸ hP⟩
  · rintro ⟨f, hf, hsev, hP⟩
    exact ⟨f.severity, hsev, ⟨f, hf, rfl⟩, hP⟩

lemma evaluateScanBlocking_iff (cfg : Config) (result : AggregatedResult) :
    evaluateScanBlocking cfg result = true ↔
      ((result.malwareFindings ≠ [] ∧ cfg.policy.malware = "block") ∨
        ∃ f ∈ result.cveFindings,
          f.severity ∈ ["critical", "high", "medium", "low"] ∧
          cfg.getCVEAction f.severity = "block") := by
  have hAM : (if result.malwareFindings.length > 0 then
        (if cfg.shouldBlock cfg.policy.malware then true else false)
      else false) = true ↔
      (result.malwareFindings ≠ [] ∧ cfg.policy.malware = "block") := by
    by_cases h : result.malwareFindings = []
    · simp [h]
    · have hlen : result.malwareFindings.length > 0 := List.length_pos.mpr h
      by_cases hb : cfg.policy.malware = "block"
      · simp [hlen, h, hb, Config.shouldBlock]
      · simp [hlen, h, hb, Config.shouldBlock]
  rw [evaluateScanBlocking]
  by_cases hc : result.cveFindings.length > 0
  · simp only [hc, if_true, severityFold_eq, Bool.or_eq_true, hAM,
      exists_blocking_severity_swap]
  · have hnil : result.cveFindings = [] := by
      simpa using Nat.le_zero.mp (Nat.not_lt.mp hc)
    simp only [hc, if_false, hAM, hnil]
    simp [Config.shouldBlock, List.length_pos]

/-- Claim C5 (amended): the two scan-result policy evaluations.  The scan
command's text output blocks iff findings exist and either malware blocking
applies (`has_malware` with malware action "block", reason "malware
detected") or `has_critical` is set with the "critical" CVE action mapped
to "block" (reason "critical vulnerabilities detected") — severities other
than critical never trigger a block there.  The install command's
evaluation blocks iff findings exist and either malware findings are
present with malware action "block", or some CVE-type finding of severity
critical, high, medium or low has its mapped action equal to "block"
(unmapped severities default to "ignore") — with the single generic reason
"security threats detected".  Warn- and ignore-mapped findings never cause
a block in either evaluation. -/
theorem policy_block_decisions (cfg : Config) (result : AggregatedResult) :
    ((outputTextDecision cfg result).isSome = true ↔
      result.totalFindings ≠ 0 ∧
        ((result.hasMalware = true ∧ cfg.policy.malware = "block") ∨
         (result.hasCritical = true ∧ cfg.getCVEAction "critical" = "block"))) ∧
    (∀ reason, outputTextDecision cfg result = some reason →
      reason = "malware detected" ∨
        reason = "critical vulnerabilities detected") ∧
    ((evaluateScanResults cfg result).isSome = true ↔
      result.totalFindings ≠ 0 ∧
        ((result.malwareFindings ≠ [] ∧ cfg.policy.malware = "block") ∨
         ∃ f ∈ result.cveFindings,
           f.severity ∈ ["critical", "high", "medium", "low"] ∧
           cfg.getCVEAction f.severity = "block")) ∧
    (∀ reason, evaluateScanResults cfg result = some reason →
      reason = "security threats detected") := by
  refine ⟨?tiff, ?treason, ?eiff, ?ereason⟩
  · rw [outputTextDecision]
    split_ifs with h1 h2 h3
    · simp [h1]
    · simp only [Option.isSome_some, true_iff]
      simp only [Bool.and_eq_true, Config.shouldBlock, decide_eq_true_eq] at h2
      exact ⟨h1, Or.inl h2⟩
    · simp only [Option.isSome_some, true_iff]
      simp only [Bool.and_eq_true, Config.shouldBlock, decide_eq_true_eq] at h3
      exact ⟨h1, Or.inr h3⟩
    · simp only [Option.isSome_none, Bool.false_eq_true, false_iff]
      rintro ⟨-, hor | hor⟩
      · exact h2 (by simp [Config.shouldBlock, hor.1, hor.2])
      · exact h3 (by simp [Config.shouldBlock, hor.1, hor.2])
  · intro reason hr
    rw [outputTextDecision] at hr
    split_ifs at hr
    · exact Or.inl (Option.some.inj hr).symm
    · exact Or.inr (Option.some.inj hr).symm
  · rw [evaluateScanResults]
    split_ifs with h1 h2
    · simp [h1]
    · simp only [Option.isSome_some, true_iff]
      exact ⟨h1, (evaluateScanBlocking_iff cfg result).mp h2⟩
    · simp only [Option.isSome_none, Bool.false_eq_true, false_iff]
      rintro ⟨-, hor⟩
      exact h2 ((evaluateScanBlocking_iff cfg result).mpr hor)
  · intro reason hr
    rw [evaluateScanResults] at hr
    split_ifs at hr
    exact (Option.some.inj hr).symm

/-- Claim C5 counterexample: with policy {cve: {high: block}, malware:
warn} and a result holding exactly one high-severity CVE finding, the claim
as stated demands a block with reason "high vulnerabilities detected".  The
scan command's text evaluation does not block at all, and the install
command's evaluation blocks only with the generic reason "security threats
detected". -/
theorem policy_block_decisions_counterexample :
    outputTextDecision cfgHighBlock resHighCVE = none ∧
    evaluateScanResults cfgHighBlock resHighCVE =
      some "security threats detected" ∧
    ("security threats detected" : String) ≠
      "high vulnerabilities detected" :=
  ⟨rfl, rfl, by decide⟩

lemma isGoSpace_toLower (c : Char) : isGoSpace c.toLower = isGoSpace c := by
  unfold Char.toLower
  by_cases h : c.toNat ≥ 65 ∧ c.toNat ≤ 90
  · rw [if_pos h]
    obtain ⟨h1, h2⟩ := h
    have hc : isGoSpace c = false := by
      unfold isGoSpace
      simp only [Bool.or_eq_false_iff, decide_eq_false_iff_not]
      omega
    rw [hc]
    set n := Char.toNat c with hdef
    interval_cases n <;> decide
  · rw [if_neg h]

lemma dropWhile_isGoSpace_map_toLower (l : List Char) :
    (l.map Char.toLower).dropWhile isGoSpace =
      (l.dropWhile isGoSpace).map Char.toLower := by
  rw [List.dropWhile_map]
  have hfun : (isGoSpace ∘ Char.toLower) = isGoSpace := funext isGoSpace_toLower
  rw [hfun]

lemma goTrimSpace_goToLower (s : String) :
    goTrimSpace (goToLower s) = goToLower (goTrimSpace s) := by
  show String.mk _ = String.mk _
  rw [show (goToLower s).toList = s.toList.map Char.toLower from rfl,
    show (goTrimSpace s).toList =
      ((s.toList.dropWhile isGoSpace).reverse.dropWhile isGoSpace).reverse
      from rfl]
  rw [dropWhile_isGoSpace_map_toLower, ← List.map_reverse,
    dropWhile_isGoSpace_map_toLower, ← List.map_reverse]

/-- Claim C8: `promptUnsecure` accepts exactly the lines whose trimmed,
lowercased form is the literal "unsecure", and `promptForce` exactly those
whose trimmed, lowercased form is "force"; a read error (`none`) and every
other line yield `false`. -/
theorem prompt_confirmation_phrases (input : Option String) :
    (promptUnsecure input = true ↔
      ∃ line, input = some line ∧
        goToLower (goTrimSpace line) = "unsecure") ∧
    (promptForce input = true ↔
      ∃ line, input = some line ∧ goToLower (goTrimSpace line) = "force") := by
  cases input with
  | none => simp [promptUnsecure, promptForce]
  | some line => simp [promptUnsecure, promptForce, goTrimSpace_goToLower]

end Snapem
